import Mathlib

/-!
Verification development for the service worker of this repository
(service-worker.js): request interception, durable sync queue,
replay engine, and push notifications, shallowly embedded in Lean.

Modelling conventions:
- JS promises that settle are modelled with Except JsError: Except.ok is a
  fulfilled promise, Except.error a rejected one.
- The platform primitives (network fetch, IndexedDB open and add, Cache
  Storage) are modelled as fields of an Env record giving the outcome of
  each call occasion; the Cache Storage is idealized as a URL-keyed map.
- Service-worker state (both caches, the sync-queue object store with its
  auto-increment counter, the sync registration flag) is passed explicitly.
- Each handler is a pure function from Env, input and state to a result
  and a new state; trace events record IndexedDB transaction usage during
  replay, tagged with the identity of the transaction they run on.
-/

namespace SW

inductive Method
  | GET
  | POST
  | PUT
  | DELETE
  | PATCH
deriving DecidableEq, Repr

/-- A JS error or rejection value, identified by its message. -/
structure JsError where
  message : String
deriving DecidableEq, Repr

/-- An intercepted request. The url field is the raw url string of the
request; the urlProtocol, urlHostname, urlPathname and urlSearch fields are
the components that new URL(request.url) exposes on it. -/
structure Request where
  url : String
  urlProtocol : String
  urlHostname : String
  urlPathname : String
  urlSearch : String
  method : Method
  headers : List (String × String)
  credentials : String
  body : List Nat
  mode : String
deriving DecidableEq, Repr

structure Response where
  status : Nat
  rtype : String
  headers : List (String × String)
  body : String
deriving DecidableEq, Repr

/-- response.ok of the Fetch API: status in the range 200 to 299. -/
def Response.isOk (r : Response) : Bool :=
  200 ≤ r.status && r.status ≤ 299

/-- An entry of the sync-queue object store, exactly the requestData record
built by addToSyncQueue. The source never writes a processed field, so it
is modelled as an Option that addToSyncQueue leaves at none. -/
structure QueueEntry where
  id : Nat
  url : String
  method : Method
  headers : List (String × String)
  credentials : String
  timestamp : Nat
  body : Option (List Nat)
  processed : Option Bool
deriving DecidableEq, Repr

/-- Outcomes of the platform primitives, one field per call occasion. -/
structure Env where
  selfProtocol : String
  selfHostname : String
  now : Nat
  nowIso : String
  fetchR : String → Except JsError Response
  dbOpen : Except JsError Unit
  dbAdd : Except JsError Unit
  dbOpenSync : Except JsError Unit
  getAllOk : Except JsError Unit
  syncSupported : Bool

abbrev CacheStore := List (String × Response)

def cacheMatch (c : CacheStore) (u : String) : Option Response :=
  (c.find? (fun p => p.1 == u)).map (fun p => p.2)

def cachePut (c : CacheStore) (u : String) (r : Response) : CacheStore :=
  (u, r) :: c.filter (fun p => !(p.1 == u))

structure Caches where
  staticCache : CacheStore
  dataCache : CacheStore
deriving DecidableEq, Repr

/-- caches.match searches the static cache (created first, at install) and
then the data cache. -/
def cachesMatch (c : Caches) (u : String) : Option Response :=
  (cacheMatch c.staticCache u).orElse (fun _ => cacheMatch c.dataCache u)

structure SWState where
  caches : Caches
  queue : List QueueEntry
  nextId : Nat
  syncRegistered : Bool
deriving Repr

def OFFLINE_URL : String := "/offline.html"

def HOSTNAME_WHITELIST (env : Env) : List String :=
  [env.selfHostname, "fonts.gstatic.com", "fonts.googleapis.com",
   "cdn.jsdelivr.net"]

/-- The requestData record that addToSyncQueue builds: url, method, headers,
credentials and timestamp always; body only for POST or PUT (the full body
buffered out, possibly empty); no processed field is ever written. The id is
the auto-increment key the object store assigns on insert. -/
def mkQueueEntry (now : Nat) (id : Nat) (req : Request) : QueueEntry :=
  { id := id
    url := req.url
    method := req.method
    headers := req.headers
    credentials := req.credentials
    timestamp := now
    body :=
      if req.method = Method.POST ∨ req.method = Method.PUT then some req.body
      else none
    processed := none }

/-- addToSyncQueue. The try block awaits openSyncDatabase, so a rejected
open is caught, logged and swallowed: the function resolves with undefined
and the state is unchanged. The IndexedDB add, however, happens inside a
promise that the try block RETURNS WITHOUT AWAITING, so a rejected add
bypasses the catch and rejects the promise addToSyncQueue returns. On a
successful add the entry is appended and, when the sync capability is
available, a sync-queue trigger is registered. -/
def addToSyncQueue (env : Env) (req : Request) (st : SWState) :
    Except JsError Unit × SWState :=
  match env.dbOpen with
  | Except.error _ => (Except.ok (), st)
  | Except.ok _ =>
      match env.dbAdd with
      | Except.ok _ =>
          (Except.ok (),
           { st with
               queue := st.queue ++ [mkQueueEntry env.now st.nextId req]
               nextId := st.nextId + 1
               syncRegistered := st.syncRegistered || env.syncSupported })
      | Except.error e => (Except.error e, st)

def jsonQueuedBody : String :=
  "\x7b\"message\":\"Request queued for sync\",\"queued\":true\x7d"

def jsonUnavailableBody : String :=
  "\x7b\"error\":\"Network unavailable\"\x7d"

/-- new Response(jsonQueuedBody) with a JSON content type: default 200. -/
def queuedResponse : Response :=
  { status := 200, rtype := "default"
    headers := [("Content-Type", "application/json")]
    body := jsonQueuedBody }

def unavailableResponse : Response :=
  { status := 503, rtype := "default"
    headers := [("Content-Type", "application/json")]
    body := jsonUnavailableBody }

/-- handleAPIRequest: look up caches.match first, then try the network. On a
fulfilled fetch, write the clone into the data cache when response.ok and
return the live response. On a rejected fetch: return the cached response
if any; else for POST or PUT call addToSyncQueue and return the queued
acknowledgment. The await of addToSyncQueue sits inside the catch block, so
a rejection coming out of it escapes handleAPIRequest itself. Other methods
get the 503 JSON error response. -/
def handleAPIRequest (env : Env) (req : Request) (st : SWState) :
    Except JsError Response × SWState :=
  let cachedResponse := cachesMatch st.caches req.url
  match env.fetchR req.url with
  | Except.ok networkResponse =>
      if networkResponse.isOk then
        (Except.ok networkResponse,
         { st with
             caches := { st.caches with
               dataCache := cachePut st.caches.dataCache req.url
                 networkResponse } })
      else (Except.ok networkResponse, st)
  | Except.error _ =>
      match cachedResponse with
      | some c => (Except.ok c, st)
      | none =>
          if req.method = Method.POST ∨ req.method = Method.PUT then
            match addToSyncQueue env req st with
            | (Except.ok _, st2) => (Except.ok queuedResponse, st2)
            | (Except.error e, st2) => (Except.error e, st2)
          else (Except.ok unavailableResponse, st)

/-- getFixedUrl: rebuild the url with the protocol of the serving origin
and, when the hostname equals the serving origin hostname, a cache-bust
query parameter appended to the search string. -/
def getFixedUrl (env : Env) (req : Request) : String :=
  let search :=
    if req.urlHostname = env.selfHostname then
      req.urlSearch ++ (if req.urlSearch ≠ "" then "&" else "?") ++
        "cache-bust=" ++ toString env.now
    else req.urlSearch
  env.selfProtocol ++ "//" ++ req.urlHostname ++ req.urlPathname ++ search

/-- fetchAndUpdateCache: fetch the cache-busted url with no-store; a
response that is not status 200 with type basic is returned without
caching (the null check of the source is vacuous for a fulfilled fetch);
otherwise a clone is stored in the static cache keyed by the ORIGINAL
request url and the response returned. -/
def fetchAndUpdateCache (env : Env) (req : Request) (st : SWState) :
    Except JsError Response × SWState :=
  match env.fetchR (getFixedUrl env req) with
  | Except.error e => (Except.error e, st)
  | Except.ok response =>
      if response.status ≠ 200 ∨ response.rtype ≠ "basic" then
        (Except.ok response, st)
      else
        (Except.ok response,
         { st with
             caches := { st.caches with
               staticCache := cachePut st.caches.staticCache req.url
                 response } })

def offlineSimpleResponse : Response :=
  { status := 200, rtype := "default", headers := []
    body := "Offline content unavailable" }

/-- The startsWith test of the source, modelled on the char lists of the
strings. -/
def strStartsWith (s p : String) : Bool :=
  p.data.isPrefixOf s.data

/-- The fetch event listener. Result none models an event the listener does
not respond to (browser default networking); some models respondWith, with
Except.error a rejected respondWith promise and Except.ok an option that is
none when the responded value is undefined. An api path goes to
handleAPIRequest. A whitelisted hostname is served from cache on a hit,
with a fire-and-forget fetchAndUpdateCache whose result the response path
never consults; on a miss fetchAndUpdateCache is awaited, falling back to
the cached offline page for navigations and a plain unavailable response
otherwise. -/
def handleFetch (env : Env) (req : Request) (st : SWState) :
    Option (Except JsError (Option Response)) × SWState :=
  if strStartsWith req.urlPathname "/api" then
    match handleAPIRequest env req st with
    | (Except.ok r, st2) => (some (Except.ok (some r)), st2)
    | (Except.error e, st2) => (some (Except.error e), st2)
  else if (HOSTNAME_WHITELIST env).contains req.urlHostname then
    match cachesMatch st.caches req.url with
    | some cachedResponse =>
        (some (Except.ok (some cachedResponse)),
         (fetchAndUpdateCache env req st).2)
    | none =>
        match fetchAndUpdateCache env req st with
        | (Except.ok r, st2) => (some (Except.ok (some r)), st2)
        | (Except.error _, st2) =>
            if req.mode = "navigate" then
              (some (Except.ok (cachesMatch st2.caches OFFLINE_URL)), st2)
            else (some (Except.ok (some offlineSimpleResponse)), st2)
  else (none, st)

def MOCK_URL : String := "/api/mock-endpoint"

/-- IndexedDB operations of a replay pass, tagged with the transaction they
run on. The source opens a single readwrite transaction (tag 0), obtains
its store, runs getAll on it, and issues every later delete on that same
store object; it never opens a second transaction. -/
inductive SyncOp
  | txOpen (tx : Nat)
  | getAllOp (tx : Nat)
  | fetchCall (url : String)
  | deleteOp (tx : Nat) (id : Nat)
deriving DecidableEq, Repr

/-- One iteration of the replay loop: the mock endpoint is deleted without
any fetch; otherwise the stored request is re-issued, deleted on an ok
status, and left untouched (the loop just continues) on a non-ok status or
a rejected fetch. Returns whether the entry is removed and the operations
issued. -/
def processEntry (env : Env) (e : QueueEntry) : Bool × List SyncOp :=
  if e.url = MOCK_URL then (true, [SyncOp.deleteOp 0 e.id])
  else
    match env.fetchR e.url with
    | Except.error _ => (false, [SyncOp.fetchCall e.url])
    | Except.ok r =>
        cond r.isOk
          (true, [SyncOp.fetchCall e.url, SyncOp.deleteOp 0 e.id])
          (false, [SyncOp.fetchCall e.url])

/-- store.delete removes the record with the given key. -/
def storeDelete (q : List QueueEntry) (i : Nat) : List QueueEntry :=
  q.filter (fun e => !(e.id == i))

/-- The replay loop over the getAll snapshot, with the live store state
threaded through. -/
def runEntries (env : Env) :
    List QueueEntry → List QueueEntry → List QueueEntry × List SyncOp
  | [], store => (store, [])
  | e :: rest, store =>
      let p := processEntry env e
      let store2 := cond p.1 (storeDelete store e.id) store
      let res := runEntries env rest store2
      (res.1, p.2 ++ res.2)

/-- processSyncQueue: a rejected database open is caught at the outer catch
and aborts the pass with nothing done; then one transaction is opened and
getAll read on it, a rejected getAll likewise aborting the pass; an empty
snapshot terminates early; otherwise the loop runs over the snapshot.
The outer try catch means the promise processSyncQueue returns always
fulfills. -/
def processSyncQueue (env : Env) (queue : List QueueEntry) :
    List QueueEntry × List SyncOp :=
  match env.dbOpenSync with
  | Except.error _ => (queue, [])
  | Except.ok _ =>
      match env.getAllOk with
      | Except.error _ => (queue, [SyncOp.txOpen 0, SyncOp.getAllOp 0])
      | Except.ok _ =>
          if queue.isEmpty then (queue, [SyncOp.txOpen 0, SyncOp.getAllOp 0])
          else
            let res := runEntries env queue queue
            (res.1, [SyncOp.txOpen 0, SyncOp.getAllOp 0] ++ res.2)

structure SyncMessage where
  mtype : String
  timestamp : String
deriving DecidableEq, Repr

/-- The sync event listener: on the sync-queue tag it awaits
processSyncQueue (which always fulfills) and then broadcasts one
SYNC_COMPLETED message with a timestamp to the clients. -/
def syncEventHandler (env : Env) (tag : String) (queue : List QueueEntry) :
    List QueueEntry × List SyncOp × List SyncMessage :=
  if tag = "sync-queue" then
    let res := processSyncQueue env queue
    (res.1, res.2, [{ mtype := "SYNC_COMPLETED", timestamp := env.nowIso }])
  else (queue, [], [])

/-- The JSON fields the push listener reads from a parsed payload. -/
structure PushPayload where
  title : Option String
  body : Option String
  icon : Option String
  url : Option String
deriving DecidableEq, Repr

/-- A push event: hasData models event.data being non-null, parsed the
outcome of event.data.json(), text the value of event.data.text(). -/
structure PushEventData where
  hasData : Bool
  parsed : Except JsError PushPayload
  text : String

/-- JS truthiness fallback as used by the listener: the default replaces
both a missing field and an empty string. -/
def jsOr (v : Option String) (d : String) : String :=
  match v with
  | none => d
  | some s => if s = "" then d else s

/-- The arguments of the showNotification call: title is the first
positional argument (none models passing undefined), the rest come from
the options record. -/
structure NotificationCall where
  title : Option String
  body : String
  icon : String
  badge : String
  url : String
deriving DecidableEq, Repr

/-- The push event listener: event.data.json() is tried first (throwing
when event.data is null); on a parse failure the fallback record carries
the default title, event.data.text() (or the no-content text) as body and
the default icon. The options then default body, icon and url by JS
truthiness, while the title is passed through to showNotification exactly
as it sits on notificationData. -/
def pushHandler (ev : PushEventData) : NotificationCall :=
  let notificationData : PushPayload :=
    if ev.hasData then
      match ev.parsed with
      | Except.ok p => p
      | Except.error _ =>
          { title := some "New Notification", body := some ev.text
            icon := some "/IP-LAB3/coder.avif", url := none }
    else
      { title := some "New Notification", body := some "No content"
        icon := some "/IP-LAB3/coder.avif", url := none }
  { title := notificationData.title
    body := jsOr notificationData.body "No details available"
    icon := jsOr notificationData.icon "/IP-LAB3/coder.avif"
    badge := "/IP-LAB3/coder.avif"
    url := jsOr notificationData.url "/IP-LAB3/index.html" }

/-! Concrete inputs used by witnesses and counterexamples. -/

/-- A fresh worker state: empty caches, empty store, auto-increment at 1. -/
def emptyState : SWState :=
  { caches := { staticCache := [], dataCache := [] }
    queue := [], nextId := 1, syncRegistered := false }

/-- Environment of an offline device: every fetch rejects, IndexedDB works. -/
def baseEnv : Env :=
  { selfProtocol := "https:", selfHostname := "example.com"
    now := 1700000000000, nowIso := "2023-11-14T22:13:20.000Z"
    fetchR := fun _ => Except.error { message := "Failed to fetch" }
    dbOpen := Except.ok (), dbAdd := Except.ok ()
    dbOpenSync := Except.ok (), getAllOk := Except.ok ()
    syncSupported := true }

/-- A POST to the mock endpoint carrying the JSON bytes of one field. A
service-worker request url is the absolute serialization, consistent with
the parsed components. -/
def mockReq : Request :=
  { url := "https://example.com/api/mock-endpoint", urlProtocol := "https:"
    urlHostname := "example.com", urlPathname := "/api/mock-endpoint"
    urlSearch := "", method := Method.POST
    headers := [("Content-Type", "application/json")]
    credentials := "same-origin"
    body := [123, 34, 120, 34, 58, 49, 125], mode := "cors" }

/-- A store record holding the literal relative mock url. The worker itself
always stores absolute request urls, so such a record only arises from a
hand-written insert (devtools or a page script writing the store
directly). -/
def mockLiteralEntry : QueueEntry :=
  { id := 1, url := "/api/mock-endpoint", method := Method.POST
    headers := [], credentials := "same-origin", timestamp := 3
    body := some [123, 34, 120, 34, 58, 49, 125], processed := none }

/-- The entry the worker queues for an offline POST to the mock endpoint:
its stored url is the absolute request url. -/
def mockAbsEntry : QueueEntry := mkQueueEntry baseEnv.now 2 mockReq

/-- A store holding one hand-inserted literal record and one worker-queued
record. -/
def c8Queue : List QueueEntry := [mockLiteralEntry, mockAbsEntry]

/-- A POST to an ordinary api path. -/
def apiPostReq : Request :=
  { url := "https://example.com/api/data", urlProtocol := "https:"
    urlHostname := "example.com", urlPathname := "/api/data"
    urlSearch := "", method := Method.POST
    headers := [("Content-Type", "application/json")]
    credentials := "same-origin", body := [49, 50], mode := "cors" }

/-- An api POST whose body is empty. -/
def emptyPostReq : Request :=
  { url := "https://example.com/api/empty", urlProtocol := "https:"
    urlHostname := "example.com", urlPathname := "/api/empty"
    urlSearch := "", method := Method.POST, headers := []
    credentials := "same-origin", body := [], mode := "cors" }

def openFailEnv : Env :=
  { baseEnv with dbOpen := Except.error { message := "open failed" } }

def addFailEnv : Env :=
  { baseEnv with dbAdd := Except.error { message := "add failed" } }

/-- A stored entry for an ordinary api url. -/
def c2Entry : QueueEntry :=
  { id := 1, url := "https://example.com/api/notes", method := Method.PUT
    headers := [], credentials := "same-origin", timestamp := 5
    body := some [104, 105], processed := none }

def okResponse : Response :=
  { status := 200, rtype := "basic", headers := [], body := "ok" }

/-- Environment in which every fetch fulfills with an ok basic response. -/
def okEnv : Env := { baseEnv with fetchR := fun _ => Except.ok okResponse }

/-- A queued entry whose replay fetch will succeed. -/
def c4Entry : QueueEntry :=
  { id := 1, url := "https://example.com/api/items", method := Method.POST
    headers := [], credentials := "same-origin", timestamp := 0
    body := some [49], processed := none }

/-- A static asset request on the serving origin. -/
def styleReq : Request :=
  { url := "https://example.com/IP-LAB3/style.css", urlProtocol := "https:"
    urlHostname := "example.com", urlPathname := "/IP-LAB3/style.css"
    urlSearch := "", method := Method.GET, headers := []
    credentials := "same-origin", body := [], mode := "no-cors" }

def basicResponse : Response :=
  { status := 200, rtype := "basic", headers := [], body := "styles" }

/-- A font request to a whitelisted foreign origin. -/
def corsFontReq : Request :=
  { url := "https://fonts.gstatic.com/s/font.woff2", urlProtocol := "https:"
    urlHostname := "fonts.gstatic.com", urlPathname := "/s/font.woff2"
    urlSearch := "", method := Method.GET, headers := []
    credentials := "omit", body := [], mode := "cors" }

/-- What a cross-origin fetch fulfills with: status 200 but type cors. -/
def corsResponse : Response :=
  { status := 200, rtype := "cors", headers := [], body := "font" }

def corsEnv : Env := { baseEnv with fetchR := fun _ => Except.ok corsResponse }

def basicEnv : Env :=
  { baseEnv with fetchR := fun _ => Except.ok basicResponse }

/-- A state whose static cache already holds the style response. -/
def cachedState : SWState :=
  { caches :=
      { staticCache := [("https://example.com/IP-LAB3/style.css",
          basicResponse)]
        dataCache := [] }
    queue := [], nextId := 1, syncRegistered := false }

/-- A push event with a parsed payload that has no fields at all. -/
def bareJsonPush : PushEventData :=
  { hasData := true
    parsed := Except.ok { title := none, body := none, icon := none
                          url := none }
    text := "raw text" }

/-- A push event whose payload fails to parse as JSON. -/
def badJsonPush : PushEventData :=
  { hasData := true
    parsed := Except.error { message := "SyntaxError" }
    text := "plain text payload" }

/-! Helper lemmas about the replay loop. -/

theorem storeDelete_sublist (q : List QueueEntry) (i : Nat) :
    (storeDelete q i).Sublist q :=
  List.filter_sublist q

theorem runEntries_cons (env : Env) (a : QueueEntry)
    (rest s : List QueueEntry) :
    runEntries env (a :: rest) s =
      ((runEntries env rest
          (cond (processEntry env a).1 (storeDelete s a.id) s)).1,
       (processEntry env a).2 ++
         (runEntries env rest
           (cond (processEntry env a).1 (storeDelete s a.id) s)).2) :=
  rfl

theorem runEntries_store_sublist (env : Env) :
    ∀ l s : List QueueEntry, ((runEntries env l s).1).Sublist s := by
  intro l
  induction l with
  | nil => intro s; exact List.Sublist.refl s
  | cons a rest ih =>
      intro s
      rw [runEntries_cons]
      cases h : (processEntry env a).1 with
      | true =>
          rw [cond_true]
          exact (ih (storeDelete s a.id)).trans (storeDelete_sublist s a.id)
      | false =>
          rw [cond_false]
          exact ih s

theorem runEntries_result_subset (env : Env) (l s : List QueueEntry)
    (e : QueueEntry) (h : e ∈ (runEntries env l s).1) : e ∈ s :=
  (runEntries_store_sublist env l s).subset h

theorem not_mem_storeDelete_self (s : List QueueEntry) (e : QueueEntry) :
    e ∉ storeDelete s e.id := by
  intro h
  have h2 := (List.mem_filter.mp h).2
  simp at h2

theorem runEntries_not_mem (env : Env) (e : QueueEntry) :
    ∀ l s : List QueueEntry, e ∈ l → (processEntry env e).1 = true →
      e ∉ (runEntries env l s).1 := by
  intro l
  induction l with
  | nil => intro s h; cases h
  | cons a rest ih =>
      intro s hmem hdel
      rcases List.mem_cons.mp hmem with he | he
      · subst he
        rw [runEntries_cons, hdel]
        intro hc
        exact not_mem_storeDelete_self s e
          (runEntries_result_subset env rest (storeDelete s e.id) e hc)
      · rw [runEntries_cons]
        intro hc
        exact ih _ he hdel hc

theorem runEntries_mem_keep (env : Env) (e : QueueEntry) :
    ∀ l s : List QueueEntry, e ∈ s →
      (∀ e2 ∈ l, e2.id = e.id → (processEntry env e2).1 = false) →
      e ∈ (runEntries env l s).1 := by
  intro l
  induction l with
  | nil => intro s hs _; exact hs
  | cons a rest ih =>
      intro s hs hkeep
      rw [runEntries_cons]
      refine ih _ ?_ ?_
      · cases h : (processEntry env a).1 with
        | true =>
            rw [cond_true]
            refine List.mem_filter.mpr ⟨hs, ?_⟩
            have hid : ¬ a.id = e.id := by
              intro hid
              have hk := hkeep a (List.mem_cons_self a rest) hid
              rw [hk] at h
              cases h
            simpa using fun hx => hid hx.symm
        | false =>
            rw [cond_false]
            exact hs
      · intro e2 h2 hid
        exact hkeep e2 (List.mem_cons_of_mem a h2) hid

theorem runEntries_keep_all (env : Env) :
    ∀ l s : List QueueEntry,
      (∀ e ∈ l, (processEntry env e).1 = false) →
      (runEntries env l s).1 = s := by
  intro l
  induction l with
  | nil => intro s _; rfl
  | cons a rest ih =>
      intro s hkeep
      have ha := hkeep a (List.mem_cons_self a rest)
      rw [runEntries_cons, ha]
      exact ih s fun e he => hkeep e (List.mem_cons_of_mem a he)

theorem processEntry_ops (env : Env) (e : QueueEntry) :
    ∀ op ∈ (processEntry env e).2,
      (∃ u, op = SyncOp.fetchCall u ∧ u ≠ MOCK_URL) ∨
      (∃ i, op = SyncOp.deleteOp 0 i) := by
  intro op hop
  by_cases h : e.url = MOCK_URL
  · simp [processEntry, h] at hop
    exact Or.inr ⟨e.id, hop⟩
  · cases hf : env.fetchR e.url with
    | error err =>
        simp [processEntry, h, hf] at hop
        exact Or.inl ⟨e.url, hop, h⟩
    | ok r =>
        cases hok : r.isOk with
        | true =>
            simp [processEntry, h, hf, hok] at hop
            rcases hop with h1 | h1
            · exact Or.inl ⟨e.url, h1, h⟩
            · exact Or.inr ⟨e.id, h1⟩
        | false =>
            simp [processEntry, h, hf, hok] at hop
            exact Or.inl ⟨e.url, hop, h⟩

theorem processEntry_ops_keep (env : Env) (e : QueueEntry)
    (hkeep : (processEntry env e).1 = false) :
    ∀ op ∈ (processEntry env e).2, ∃ u, op = SyncOp.fetchCall u := by
  intro op hop
  by_cases h : e.url = MOCK_URL
  · simp [processEntry, h] at hkeep
  · cases hf : env.fetchR e.url with
    | error err =>
        simp [processEntry, h, hf] at hop
        exact ⟨e.url, hop⟩
    | ok r =>
        cases hok : r.isOk with
        | true => simp [processEntry, h, hf, hok] at hkeep
        | false =>
            simp [processEntry, h, hf, hok] at hop
            exact ⟨e.url, hop⟩

theorem runEntries_ops_shape (env : Env) :
    ∀ l s : List QueueEntry, ∀ op ∈ (runEntries env l s).2,
      (∃ u, op = SyncOp.fetchCall u ∧ u ≠ MOCK_URL) ∨
      (∃ i, op = SyncOp.deleteOp 0 i) := by
  intro l
  induction l with
  | nil => intro s op hop; cases hop
  | cons a rest ih =>
      intro s op hop
      rw [runEntries_cons] at hop
      rcases List.mem_append.mp hop with h1 | h1
      · exact processEntry_ops env a op h1
      · exact ih _ op h1

theorem runEntries_ops_keep_all (env : Env) :
    ∀ l s : List QueueEntry,
      (∀ e ∈ l, (processEntry env e).1 = false) →
      ∀ op ∈ (runEntries env l s).2, ∃ u, op = SyncOp.fetchCall u := by
  intro l
  induction l with
  | nil => intro s _ op hop; cases hop
  | cons a rest ih =>
      intro s hkeep op hop
      rw [runEntries_cons] at hop
      rcases List.mem_append.mp hop with h1 | h1
      · exact processEntry_ops_keep env a
          (hkeep a (List.mem_cons_self a rest)) op h1
      · exact ih _ (fun e he => hkeep e (List.mem_cons_of_mem a he)) op h1

theorem runEntries_fetch_issued (env : Env) (e : QueueEntry) :
    ∀ l s : List QueueEntry, e ∈ l → e.url ≠ MOCK_URL →
      SyncOp.fetchCall e.url ∈ (runEntries env l s).2 := by
  intro l
  induction l with
  | nil => intro s h; cases h
  | cons a rest ih =>
      intro s hmem hurl
      rw [runEntries_cons]
      refine List.mem_append.mpr ?_
      rcases List.mem_cons.mp hmem with he | he
      · subst he
        left
        cases hf : env.fetchR e.url with
        | error err => simp [processEntry, hurl, hf]
        | ok r =>
            cases hok : r.isOk with
            | true => simp [processEntry, hurl, hf, hok]
            | false => simp [processEntry, hurl, hf, hok]
      · exact Or.inr (ih _ he hurl)

theorem runEntries_no_mock_fetch (env : Env) (l s : List QueueEntry) :
    SyncOp.fetchCall MOCK_URL ∉ (runEntries env l s).2 := by
  intro hc
  rcases runEntries_ops_shape env l s _ hc with ⟨u, hu, hne⟩ | ⟨i, hi⟩
  · cases hu; exact hne rfl
  · cases hi

theorem processSyncQueue_run (env : Env) (q : List QueueEntry)
    (hOpen : env.dbOpenSync = Except.ok ())
    (hAll : env.getAllOk = Except.ok ()) (hne : q ≠ []) :
    processSyncQueue env q =
      ((runEntries env q q).1,
       [SyncOp.txOpen 0, SyncOp.getAllOp 0] ++ (runEntries env q q).2) := by
  cases q with
  | nil => exact absurd rfl hne
  | cons a rest => simp [processSyncQueue, hOpen, hAll]

theorem processSyncQueue_survivor_keep (env : Env) (q : List QueueEntry)
    (e : QueueEntry) (hOpen : env.dbOpenSync = Except.ok ())
    (hAll : env.getAllOk = Except.ok ()) (hne : q ≠ [])
    (hmem : e ∈ (processSyncQueue env q).1) :
    (processEntry env e).1 = false := by
  rw [processSyncQueue_run env q hOpen hAll hne] at hmem
  cases hdel : (processEntry env e).1 with
  | false => rfl
  | true =>
      exact absurd hmem
        (runEntries_not_mem env e q q
          (runEntries_result_subset env q q e hmem) hdel)

theorem processSyncQueue_noop (env : Env) (q1 : List QueueEntry)
    (hkeep : ∀ e ∈ q1, (processEntry env e).1 = false) :
    (processSyncQueue env q1).1 = q1 ∧
    ∀ tx i, SyncOp.deleteOp tx i ∉ (processSyncQueue env q1).2 := by
  cases hOpen : env.dbOpenSync with
  | error e1 =>
      refine ⟨by simp [processSyncQueue, hOpen], ?_⟩
      intro tx i
      simp [processSyncQueue, hOpen]
  | ok u =>
      cases hAll : env.getAllOk with
      | error e1 =>
          refine ⟨by simp [processSyncQueue, hOpen, hAll], ?_⟩
          intro tx i
          simp [processSyncQueue, hOpen, hAll]
      | ok u2 =>
          cases q1 with
          | nil =>
              refine ⟨by simp [processSyncQueue, hOpen, hAll], ?_⟩
              intro tx i
              simp [processSyncQueue, hOpen, hAll]
          | cons a rest =>
              have hrw := processSyncQueue_run env (a :: rest)
                (by rw [hOpen]) (by rw [hAll]) (by simp)
              rw [hrw]
              refine ⟨runEntries_keep_all env (a :: rest) (a :: rest) hkeep,
                ?_⟩
              intro tx i hc
              rcases List.mem_append.mp hc with h1 | h1
              · simp at h1
              · rcases runEntries_ops_keep_all env (a :: rest) (a :: rest)
                  hkeep _ h1 with ⟨u3, hu3⟩
                cases hu3

/-! Claim theorems. -/

/-- C2: during a replay pass (store open and getAll succeeding), a stored
entry for a non-mock url is deleted from the store when its replay fetch
fulfills with an ok status, and is still present, as the very same record
(processed flag included), when the fetch fulfills with a non-ok status or
rejects; the pass keeps the store order and still issues the replay fetch
of every non-mock entry of the snapshot, so a failing entry does not stop
the pass. -/
theorem c2_replay_entry_outcomes (env : Env) (q : List QueueEntry)
    (e : QueueEntry)
    (hOpen : env.dbOpenSync = Except.ok ())
    (hAll : env.getAllOk = Except.ok ())
    (hmem : e ∈ q) (hurl : e.url ≠ MOCK_URL)
    (hids : (q.map QueueEntry.id).Nodup) :
    (∀ r, env.fetchR e.url = Except.ok r → r.isOk = true →
        e ∉ (processSyncQueue env q).1) ∧
    (∀ r, env.fetchR e.url = Except.ok r → r.isOk = false →
        e ∈ (processSyncQueue env q).1) ∧
    (∀ err, env.fetchR e.url = Except.error err →
        e ∈ (processSyncQueue env q).1) ∧
    ((processSyncQueue env q).1).Sublist q ∧
    (∀ e2 ∈ q, e2.url ≠ MOCK_URL →
        SyncOp.fetchCall e2.url ∈ (processSyncQueue env q).2) := by
  have hne : q ≠ [] := by
    intro h
    rw [h] at hmem
    cases hmem
  have hrw := processSyncQueue_run env q hOpen hAll hne
  have hinj := List.inj_on_of_nodup_map hids
  refine ⟨?_, ?_, ?_, ?_, ?_⟩
  · intro r hf hok
    rw [hrw]
    exact runEntries_not_mem env e q q hmem
      (by simp [processEntry, hurl, hf, hok])
  · intro r hf hok
    rw [hrw]
    refine runEntries_mem_keep env e q q hmem ?_
    intro e2 h2 hid
    have he2 : e2 = e := hinj h2 hmem hid
    rw [he2]
    simp [processEntry, hurl, hf, hok]
  · intro err hf
    rw [hrw]
    refine runEntries_mem_keep env e q q hmem ?_
    intro e2 h2 hid
    have he2 : e2 = e := hinj h2 hmem hid
    rw [he2]
    simp [processEntry, hurl, hf]
  · rw [hrw]
    exact runEntries_store_sublist env q q
  · intro e2 h2 hu
    rw [hrw]
    exact List.mem_append.mpr
      (Or.inr (runEntries_fetch_issued env e2 q q h2 hu))

/-- Witness for C2 at a concrete input: one stored PUT whose replay fetch
rejects stays in the store. -/
theorem c2_witness :
    (baseEnv.dbOpenSync = Except.ok () ∧ baseEnv.getAllOk = Except.ok () ∧
     c2Entry ∈ [c2Entry] ∧ c2Entry.url ≠ MOCK_URL ∧
     (([c2Entry].map QueueEntry.id).Nodup)) ∧
    ((∀ r, baseEnv.fetchR c2Entry.url = Except.ok r → r.isOk = true →
        c2Entry ∉ (processSyncQueue baseEnv [c2Entry]).1) ∧
     (∀ r, baseEnv.fetchR c2Entry.url = Except.ok r → r.isOk = false →
        c2Entry ∈ (processSyncQueue baseEnv [c2Entry]).1) ∧
     (∀ err, baseEnv.fetchR c2Entry.url = Except.error err →
        c2Entry ∈ (processSyncQueue baseEnv [c2Entry]).1) ∧
     ((processSyncQueue baseEnv [c2Entry]).1).Sublist [c2Entry] ∧
     (∀ e2 ∈ [c2Entry], e2.url ≠ MOCK_URL →
        SyncOp.fetchCall e2.url ∈ (processSyncQueue baseEnv [c2Entry]).2)) :=
  ⟨⟨rfl, rfl, List.Mem.head _, by decide, by decide⟩,
   c2_replay_entry_outcomes baseEnv [c2Entry] c2Entry rfl rfl
     (List.Mem.head _) (by decide) (by decide)⟩

/-- C4 counterexample: with one queued entry whose replay fetch fulfills
with an ok status, the pass reads the snapshot on transaction 0 and then
issues the per-entry deletion on that SAME transaction 0, so the deletion
is not issued in a fresh transaction as the claim states. -/
theorem c4_counterexample :
    SyncOp.getAllOp 0 ∈ (processSyncQueue okEnv [c4Entry]).2 ∧
    SyncOp.deleteOp 0 1 ∈ (processSyncQueue okEnv [c4Entry]).2 ∧
    ¬ (∀ tx i, SyncOp.deleteOp tx i ∈ (processSyncQueue okEnv [c4Entry]).2 →
        tx ≠ 0) :=
  ⟨by decide, by decide, fun hall => hall 0 1 (by decide) rfl⟩

/-- C4 amended: during a replay pass the single transaction 0 is opened and
getAll reads every entry on it before any network operation; everything
after that read is only replay fetches and per-entry deletions, and every
deletion is issued back on that same transaction 0 (the source never opens
a fresh transaction after a fetch). -/
theorem c4_reads_first_single_transaction (env : Env)
    (q : List QueueEntry) (hOpen : env.dbOpenSync = Except.ok ())
    (hAll : env.getAllOk = Except.ok ()) (hne : q ≠ []) :
    ∃ rest, (processSyncQueue env q).2 =
        [SyncOp.txOpen 0, SyncOp.getAllOp 0] ++ rest ∧
      ∀ op ∈ rest, (∃ u, op = SyncOp.fetchCall u) ∨
        (∃ i, op = SyncOp.deleteOp 0 i) := by
  refine ⟨(runEntries env q q).2, ?_, ?_⟩
  · rw [processSyncQueue_run env q hOpen hAll hne]
  · intro op hop
    rcases runEntries_ops_shape env q q op hop with ⟨u, hu, _⟩ | hi
    · exact Or.inl ⟨u, hu⟩
    · exact Or.inr hi

/-- Witness for the amended C4 at the same concrete input. -/
theorem c4_witness :
    (okEnv.dbOpenSync = Except.ok () ∧ okEnv.getAllOk = Except.ok () ∧
     [c4Entry] ≠ []) ∧
    (∃ rest, (processSyncQueue okEnv [c4Entry]).2 =
        [SyncOp.txOpen 0, SyncOp.getAllOp 0] ++ rest ∧
      ∀ op ∈ rest, (∃ u, op = SyncOp.fetchCall u) ∨
        (∃ i, op = SyncOp.deleteOp 0 i)) :=
  ⟨⟨rfl, rfl, by decide⟩,
   c4_reads_first_single_transaction okEnv [c4Entry] rfl rfl (by decide)⟩

/-- C7: running the replay engine a second time on the store the first run
left behind, with no entries added in between, changes nothing: the store
is returned unchanged, no deletion is issued, and the sync handler still
broadcasts exactly one SYNC_COMPLETED message with a timestamp for that
second run. -/
theorem c7_second_run_noop (env : Env) (q0 : List QueueEntry) :
    (processSyncQueue env (processSyncQueue env q0).1).1 =
      (processSyncQueue env q0).1 ∧
    (∀ tx i, SyncOp.deleteOp tx i ∉
        (processSyncQueue env (processSyncQueue env q0).1).2) ∧
    (syncEventHandler env "sync-queue" (processSyncQueue env q0).1).2.2 =
      [{ mtype := "SYNC_COMPLETED", timestamp := env.nowIso }] := by
  have hmsg : (syncEventHandler env "sync-queue"
      (processSyncQueue env q0).1).2.2 =
      [{ mtype := "SYNC_COMPLETED", timestamp := env.nowIso }] := by
    simp [syncEventHandler]
  cases hOpen : env.dbOpenSync with
  | error e1 =>
      have h1 : (processSyncQueue env q0).1 = q0 := by
        simp [processSyncQueue, hOpen]
      refine ⟨?_, ?_, hmsg⟩
      · simp [processSyncQueue, hOpen]
      · intro tx i
        simp [processSyncQueue, hOpen]
  | ok u =>
      cases hAll : env.getAllOk with
      | error e1 =>
          refine ⟨?_, ?_, hmsg⟩
          · simp [processSyncQueue, hOpen, hAll]
          · intro tx i
            simp [processSyncQueue, hOpen, hAll]
      | ok u2 =>
          cases hq : q0 with
          | nil =>
              refine ⟨?_, ?_, hmsg⟩
              · simp [processSyncQueue, hOpen, hAll]
              · intro tx i
                simp [processSyncQueue, hOpen, hAll]
          | cons a rest =>
              have hOpen2 : env.dbOpenSync = Except.ok () := by rw [hOpen]
              have hAll2 : env.getAllOk = Except.ok () := by rw [hAll]
              have hkeep : ∀ e ∈ (processSyncQueue env (a :: rest)).1,
                  (processEntry env e).1 = false := by
                intro e he
                exact processSyncQueue_survivor_keep env (a :: rest) e
                  hOpen2 hAll2 (by simp) he
              have hres := processSyncQueue_noop env
                (processSyncQueue env (a :: rest)).1 hkeep
              exact ⟨hres.1, hres.2, hmsg⟩

/-- C8 counterexample, running the claimed scenario on realizable inputs:
queueing a POST to the mock endpoint while offline creates entry id 1
whose STORED url is the absolute request url, which does not equal the
literal the replay pass compares against; on the next replay trigger under
the offline network the entry is refetched (the fetch rejects) and
REMAINS in the store, so it is not deleted regardless of network state as
the claim says. -/
theorem c8_counterexample :
    (handleAPIRequest baseEnv mockReq emptyState).2.queue =
      [mkQueueEntry baseEnv.now 1 mockReq] ∧
    (mkQueueEntry baseEnv.now 1 mockReq).id = 1 ∧
    (mkQueueEntry baseEnv.now 1 mockReq).url ≠ MOCK_URL ∧
    mkQueueEntry baseEnv.now 1 mockReq ∈
      (processSyncQueue baseEnv [mkQueueEntry baseEnv.now 1 mockReq]).1 ∧
    SyncOp.fetchCall (mkQueueEntry baseEnv.now 1 mockReq).url ∈
      (processSyncQueue baseEnv [mkQueueEntry baseEnv.now 1 mockReq]).2 :=
  ⟨rfl, rfl, by decide, by decide, by decide⟩

/-- C8 amended: the queueing operation stores the request url verbatim
(hence absolute for worker-queued requests); a stored entry is handled by
the mock short-circuit exactly when its stored url IS the literal
designated endpoint: such an entry is deleted with no fetch of the mock
url ever issued, whatever the network does; a stored entry whose url does
not match (in particular one the worker queued for a POST to the mock
endpoint) is refetched, and when that fetch rejects, as it does offline,
the entry survives the pass. -/
theorem c8_mock_literal_only (env : Env) (q : List QueueEntry)
    (e : QueueEntry) (now i : Nat) (req : Request)
    (hOpen : env.dbOpenSync = Except.ok ())
    (hAll : env.getAllOk = Except.ok ())
    (hmem : e ∈ q) (hids : (q.map QueueEntry.id).Nodup) :
    (mkQueueEntry now i req).url = req.url ∧
    (e.url = MOCK_URL →
        e ∉ (processSyncQueue env q).1 ∧
        SyncOp.fetchCall MOCK_URL ∉ (processSyncQueue env q).2) ∧
    (∀ err, e.url ≠ MOCK_URL → env.fetchR e.url = Except.error err →
        e ∈ (processSyncQueue env q).1 ∧
        SyncOp.fetchCall e.url ∈ (processSyncQueue env q).2) := by
  have hne : q ≠ [] := by
    intro h
    rw [h] at hmem
    cases hmem
  have hrw := processSyncQueue_run env q hOpen hAll hne
  have hinj := List.inj_on_of_nodup_map hids
  refine ⟨rfl, ?_, ?_⟩
  · intro hurl
    constructor
    · rw [hrw]
      exact runEntries_not_mem env e q q hmem (by simp [processEntry, hurl])
    · rw [hrw]
      intro hc
      rcases List.mem_append.mp hc with h1 | h1
      · simp at h1
      · exact runEntries_no_mock_fetch env q q h1
  · intro err hurl hf
    constructor
    · rw [hrw]
      refine runEntries_mem_keep env e q q hmem ?_
      intro e2 h2 hid
      have he2 : e2 = e := hinj h2 hmem hid
      rw [he2]
      simp [processEntry, hurl, hf]
    · rw [hrw]
      exact List.mem_append.mpr
        (Or.inr (runEntries_fetch_issued env e q q hmem hurl))

/-- Witness for the amended C8: in one offline replay pass over a store
holding a hand-inserted record with the literal mock url and the entry the
worker queued for an offline mock-endpoint POST, the literal record is
deleted with no mock fetch issued, while the worker-queued entry (absolute
stored url) is refetched and survives. -/
theorem c8_witness :
    (baseEnv.dbOpenSync = Except.ok () ∧ baseEnv.getAllOk = Except.ok () ∧
     mockLiteralEntry ∈ c8Queue ∧ mockAbsEntry ∈ c8Queue ∧
     (c8Queue.map QueueEntry.id).Nodup ∧
     mockLiteralEntry.url = MOCK_URL ∧ mockAbsEntry.url ≠ MOCK_URL ∧
     baseEnv.fetchR mockAbsEntry.url =
       Except.error { message := "Failed to fetch" }) ∧
    ((mkQueueEntry baseEnv.now 1 mockReq).url = mockReq.url ∧
     (mockLiteralEntry ∉ (processSyncQueue baseEnv c8Queue).1 ∧
      SyncOp.fetchCall MOCK_URL ∉ (processSyncQueue baseEnv c8Queue).2) ∧
     (mockAbsEntry ∈ (processSyncQueue baseEnv c8Queue).1 ∧
      SyncOp.fetchCall mockAbsEntry.url ∈
        (processSyncQueue baseEnv c8Queue).2)) :=
  ⟨⟨rfl, rfl, List.Mem.head _, by decide, by decide, rfl, by decide, rfl⟩,
   (c8_mock_literal_only baseEnv c8Queue mockLiteralEntry baseEnv.now 1
      mockReq rfl rfl (List.Mem.head _) (by decide)).1,
   (c8_mock_literal_only baseEnv c8Queue mockLiteralEntry baseEnv.now 1
      mockReq rfl rfl (List.Mem.head _) (by decide)).2.1 rfl,
   (c8_mock_literal_only baseEnv c8Queue mockAbsEntry baseEnv.now 1
      mockReq rfl rfl (by decide) (by decide)).2.2
     { message := "Failed to fetch" } (by decide) rfl⟩

/-- C1 evidence: for an api POST whose fetch rejects with no cached
response, a failing openSyncDatabase is indeed caught and swallowed and
the caller still gets the queued acknowledgment (first conjunct, as the
claim states); but a failing IndexedDB add rejects the promise that the
try block of addToSyncQueue returns without awaiting, the rejection
bypasses its catch, and handleAPIRequest, which awaits it inside its own
catch block, rejects too: the exception escapes to the fetch event caller
instead of the queued acknowledgment (second conjunct, refuting the
claim). -/
theorem c1_insert_failure_escapes :
    (handleAPIRequest openFailEnv apiPostReq emptyState).1 =
      Except.ok queuedResponse ∧
    (handleAPIRequest addFailEnv apiPostReq emptyState).1 =
      Except.error { message := "add failed" } :=
  ⟨rfl, rfl⟩

/-- C3 counterexample: the entry that queueing an offline api POST inserts
carries NO processed field (modelled as none); it is not inserted with
processed=false as the claim states. -/
theorem c3_counterexample :
    (handleAPIRequest baseEnv apiPostReq emptyState).2.queue.map
        QueueEntry.processed = [none] ∧
    (handleAPIRequest baseEnv apiPostReq emptyState).2.queue.map
        QueueEntry.processed ≠ [some false] :=
  ⟨rfl, by decide⟩

/-- C3 amended: for an api POST or PUT whose network fetch rejects and for
which the cache lookup of step one (which spans both caches) found
nothing, a new QueueEntry is appended to the durable store by a working
IndexedDB; the entry carries url, method, headers, credentials mode,
timestamp and body and no processed flag; and the caller receives the
status 200 JSON acknowledgment whose body carries the queued-for-sync
message and queued true. -/
theorem c3_queue_on_network_failure (env : Env) (req : Request)
    (st : SWState)
    (hm : req.method = Method.POST ∨ req.method = Method.PUT)
    (err : JsError) (hf : env.fetchR req.url = Except.error err)
    (hc : cachesMatch st.caches req.url = none)
    (hopen : env.dbOpen = Except.ok ()) (hadd : env.dbAdd = Except.ok ()) :
    (handleAPIRequest env req st).1 = Except.ok queuedResponse ∧
    (handleAPIRequest env req st).2.queue =
      st.queue ++ [mkQueueEntry env.now st.nextId req] ∧
    (mkQueueEntry env.now st.nextId req).processed = none ∧
    queuedResponse.status = 200 ∧
    queuedResponse.body = jsonQueuedBody := by
  have h1 : handleAPIRequest env req st =
      (Except.ok queuedResponse,
       { st with
           queue := st.queue ++ [mkQueueEntry env.now st.nextId req]
           nextId := st.nextId + 1
           syncRegistered := st.syncRegistered || env.syncSupported }) := by
    simp [handleAPIRequest, addToSyncQueue, hf, hc, hopen, hadd, if_pos hm]
  rw [h1]
  exact ⟨rfl, rfl, rfl, rfl, rfl⟩

/-- Witness for the amended C3 at a concrete offline POST. -/
theorem c3_witness :
    ((apiPostReq.method = Method.POST ∨ apiPostReq.method = Method.PUT) ∧
     baseEnv.fetchR apiPostReq.url =
       Except.error { message := "Failed to fetch" } ∧
     cachesMatch emptyState.caches apiPostReq.url = none ∧
     baseEnv.dbOpen = Except.ok () ∧ baseEnv.dbAdd = Except.ok ()) ∧
    ((handleAPIRequest baseEnv apiPostReq emptyState).1 =
        Except.ok queuedResponse ∧
     (handleAPIRequest baseEnv apiPostReq emptyState).2.queue =
        emptyState.queue ++
          [mkQueueEntry baseEnv.now emptyState.nextId apiPostReq] ∧
     (mkQueueEntry baseEnv.now emptyState.nextId apiPostReq).processed =
        none ∧
     queuedResponse.status = 200 ∧
     queuedResponse.body = jsonQueuedBody) :=
  ⟨⟨Or.inl rfl, rfl, rfl, rfl, rfl⟩,
   c3_queue_on_network_failure baseEnv apiPostReq emptyState (Or.inl rfl)
     { message := "Failed to fetch" } rfl rfl rfl rfl⟩

/-- C9 counterexample: a queued POST with an EMPTY body still gets a body
field (an empty buffer), so body presence is not equivalent to the method
being POST or PUT with a non-empty body. -/
theorem c9_counterexample :
    ¬ ((mkQueueEntry 0 1 emptyPostReq).body.isSome = true ↔
        ((emptyPostReq.method = Method.POST ∨
          emptyPostReq.method = Method.PUT) ∧
         emptyPostReq.body ≠ [])) := by
  decide

/-- C9 amended: an entry created by the queueing operation has a body field
exactly when the method is POST or PUT, whether or not the buffered body
is empty. -/
theorem c9_body_iff_mutating (now id : Nat) (req : Request) :
    (mkQueueEntry now id req).body.isSome = true ↔
      (req.method = Method.POST ∨ req.method = Method.PUT) := by
  by_cases h : req.method = Method.POST ∨ req.method = Method.PUT
  · simp [mkQueueEntry, h]
  · simp [mkQueueEntry, h]

theorem mem_of_contains {l : List String} {a : String}
    (h : l.contains a = true) : a ∈ l := by
  simpa using h

/-- C6: a static-asset request (non-api path, whitelisted hostname) that
hits the cache is answered with the cached response whatever the
environment makes of the background refetch, which runs fire-and-forget:
its outcome never reaches the response, only the cache state. -/
theorem c6_cache_hit_serves_cached (env : Env) (req : Request)
    (st : SWState) (c : Response)
    (hapi : strStartsWith req.urlPathname "/api" = false)
    (hwl : (HOSTNAME_WHITELIST env).contains req.urlHostname = true)
    (hhit : cachesMatch st.caches req.url = some c) :
    (handleFetch env req st).1 = some (Except.ok (some c)) ∧
    (handleFetch env req st).2 = (fetchAndUpdateCache env req st).2 := by
  have hwl2 := mem_of_contains hwl
  constructor
  · simp [handleFetch, hapi, hwl2, hhit]
  · simp [handleFetch, hapi, hwl2, hhit]

/-- Witness for C6: a cached style sheet is served even though every fetch
of the background refresh rejects. -/
theorem c6_witness :
    (strStartsWith styleReq.urlPathname "/api" = false ∧
     (HOSTNAME_WHITELIST baseEnv).contains styleReq.urlHostname = true ∧
     cachesMatch cachedState.caches styleReq.url = some basicResponse) ∧
    ((handleFetch baseEnv styleReq cachedState).1 =
        some (Except.ok (some basicResponse)) ∧
     (handleFetch baseEnv styleReq cachedState).2 =
        (fetchAndUpdateCache baseEnv styleReq cachedState).2) :=
  ⟨⟨by decide, rfl, rfl⟩,
   c6_cache_hit_serves_cached baseEnv styleReq cachedState basicResponse
     (by decide) rfl rfl⟩

theorem cachesMatch_put_static (c : Caches) (u : String) (r : Response) :
    cachesMatch { c with staticCache := cachePut c.staticCache u r } u =
      some r := by
  simp [cachesMatch, cacheMatch, cachePut, Option.orElse]

/-- C5 counterexample: a static-asset cache miss on a whitelisted foreign
host whose network fetch SUCCEEDS (fulfills, status 200) is served, yet
nothing is cached, because the response type is cors rather than basic: an
immediately subsequent identical request is still a cache miss, refuting
the claim that every successful fetch is stored. -/
theorem c5_counterexample :
    corsEnv.fetchR (getFixedUrl corsEnv corsFontReq) =
      Except.ok corsResponse ∧
    corsResponse.status = 200 ∧
    (handleFetch corsEnv corsFontReq emptyState).1 =
      some (Except.ok (some corsResponse)) ∧
    cachesMatch (handleFetch corsEnv corsFontReq emptyState).2.caches
      corsFontReq.url = none := by
  exact ⟨rfl, rfl, rfl, rfl⟩

/-- C5 amended: a static-asset cache miss whose fetch fulfills with status
200 and type basic is served and stored in the static cache keyed by the
original (non-busted) request url, so that an immediately subsequent
identical request is a cache hit answered with that response; a fulfilled
fetch of any other status or type is served without being cached. -/
theorem c5_miss_caches_basic200 (env : Env) (req : Request)
    (st : SWState) (r : Response)
    (hapi : strStartsWith req.urlPathname "/api" = false)
    (hwl : (HOSTNAME_WHITELIST env).contains req.urlHostname = true)
    (hmiss : cachesMatch st.caches req.url = none)
    (hf : env.fetchR (getFixedUrl env req) = Except.ok r)
    (h200 : r.status = 200) (hbasic : r.rtype = "basic") :
    (handleFetch env req st).1 = some (Except.ok (some r)) ∧
    cachesMatch (handleFetch env req st).2.caches req.url = some r ∧
    (handleFetch env req ((handleFetch env req st).2)).1 =
      some (Except.ok (some r)) := by
  have hwl2 := mem_of_contains hwl
  have hrun : handleFetch env req st =
      (some (Except.ok (some r)),
       { st with caches := { st.caches with
           staticCache := cachePut st.caches.staticCache req.url r } }) := by
    simp [handleFetch, hapi, hwl2, hmiss, fetchAndUpdateCache, hf, h200,
      hbasic]
  have hput : cachesMatch
      { st.caches with
        staticCache := cachePut st.caches.staticCache req.url r }
      req.url = some r := cachesMatch_put_static st.caches req.url r
  refine ⟨by rw [hrun], ?_, ?_⟩
  · rw [hrun]
    exact hput
  · rw [hrun]
    simp [handleFetch, hapi, hwl2, hput]

/-- Witness for the amended C5: a missing style sheet fetched from the
serving origin with a 200 basic response becomes a cache hit for the next
identical request. -/
theorem c5_witness :
    (strStartsWith styleReq.urlPathname "/api" = false ∧
     (HOSTNAME_WHITELIST basicEnv).contains styleReq.urlHostname = true ∧
     cachesMatch emptyState.caches styleReq.url = none ∧
     basicEnv.fetchR (getFixedUrl basicEnv styleReq) =
       Except.ok basicResponse ∧
     basicResponse.status = 200 ∧ basicResponse.rtype = "basic") ∧
    ((handleFetch basicEnv styleReq emptyState).1 =
        some (Except.ok (some basicResponse)) ∧
     cachesMatch (handleFetch basicEnv styleReq emptyState).2.caches
        styleReq.url = some basicResponse ∧
     (handleFetch basicEnv styleReq
        ((handleFetch basicEnv styleReq emptyState).2)).1 =
        some (Except.ok (some basicResponse))) :=
  ⟨⟨by decide, rfl, rfl, rfl, rfl, rfl⟩,
   c5_miss_caches_basic200 basicEnv styleReq emptyState basicResponse
     (by decide) rfl rfl rfl rfl rfl⟩

/-- C10: when the push payload parses as JSON, the notification options
default a missing body, icon and url to the documented fallbacks, while
the title is handed to showNotification exactly as parsed - a payload with
no title yields an undefined (none) title, not the default one; the
default title New Notification appears exactly in the branch where
event.data.json() throws. -/
theorem c10_push_defaults (ev : PushEventData) (p : PushPayload)
    (hd : ev.hasData = true) (hp : ev.parsed = Except.ok p)
    (ev2 : PushEventData) (err2 : JsError) (hd2 : ev2.hasData = true)
    (hp2 : ev2.parsed = Except.error err2) :
    (pushHandler ev).title = p.title ∧
    (p.title = none → (pushHandler ev).title = none) ∧
    (p.body = none → (pushHandler ev).body = "No details available") ∧
    (p.icon = none → (pushHandler ev).icon = "/IP-LAB3/coder.avif") ∧
    (p.url = none → (pushHandler ev).url = "/IP-LAB3/index.html") ∧
    (pushHandler ev2).title = some "New Notification" := by
  have h1 : pushHandler ev =
      { title := p.title
        body := jsOr p.body "No details available"
        icon := jsOr p.icon "/IP-LAB3/coder.avif"
        badge := "/IP-LAB3/coder.avif"
        url := jsOr p.url "/IP-LAB3/index.html" } := by
    simp [pushHandler, hd, hp]
  have h2 : (pushHandler ev2).title = some "New Notification" := by
    simp [pushHandler, hd2, hp2]
  refine ⟨by rw [h1], ?_, ?_, ?_, ?_, h2⟩
  · intro ht
    rw [h1]
    exact ht
  · intro hb
    rw [h1]
    simp [jsOr, hb]
  · intro hi
    rw [h1]
    simp [jsOr, hi]
  · intro hu
    rw [h1]
    simp [jsOr, hu]

/-- Witness for C10: a parsed payload with no fields at all yields an
undefined title with every other option defaulted, while an unparsable
payload yields the default title. -/
theorem c10_witness :
    (bareJsonPush.hasData = true ∧
     bareJsonPush.parsed =
       Except.ok { title := none, body := none, icon := none, url := none } ∧
     badJsonPush.hasData = true ∧
     badJsonPush.parsed = Except.error { message := "SyntaxError" }) ∧
    ((pushHandler bareJsonPush).title = none ∧
     (pushHandler bareJsonPush).body = "No details available" ∧
     (pushHandler bareJsonPush).icon = "/IP-LAB3/coder.avif" ∧
     (pushHandler bareJsonPush).url = "/IP-LAB3/index.html" ∧
     (pushHandler badJsonPush).title = some "New Notification") := by
  have h := c10_push_defaults bareJsonPush
    { title := none, body := none, icon := none, url := none } rfl rfl
    badJsonPush { message := "SyntaxError" } rfl rfl
  exact ⟨⟨rfl, rfl, rfl, rfl⟩,
    h.2.1 rfl, h.2.2.1 rfl, h.2.2.2.1 rfl, h.2.2.2.2.1 rfl, h.2.2.2.2.2⟩

end SW
